import Mathlib

/-!
# OAuth callback server

A shallow embedding of `src/oauth-callback-server.js`: the HTML escaping
function `escapeHtml` and the request handler passed to `http.createServer`.

Modelling choices.

* JavaScript strings are modelled by `String`, seen as the list of its
  characters (`String.data`). All characters the program inspects are ASCII.
* `url.parse(req.url || '', true)` belongs to the Node.js library, not to the
  program. The handler is modelled on its result: `pathname` is a string or
  `null`, and every entry of `query` is `undefined` (key absent), a string
  (key given once), or an array of at least two strings (key repeated). The
  library call can also throw; `handlerJs` takes that outcome into account.
* The response object `res` is modelled by the list of calls made on it, in
  order (`writeHead`, then `end`).
* The type assertions `error as string` and `code as string` of source lines
  37 and 54 have no effect at run time and are left out.
-/

namespace OAuthCallback

set_option maxRecDepth 100000

/-! ## Data model -/

/-- Source line 11: `const PORT = 3000;`. -/
def PORT : Nat := 3000

/-- A value read from `parsedUrl.query`: `undefined`, a string, or the array
the query parser builds for a repeated key, which has at least two elements. -/
inductive QueryValue where
  | absent
  | str (s : String)
  | multi (first second : String) (more : List String)
  deriving DecidableEq

/-- JavaScript truthiness, as tested by `if (error)` and `if (code)`:
`undefined` and the empty string are falsy, every other string and every array
is truthy. -/
def QueryValue.truthy : QueryValue → Bool
  | .absent => false
  | .str s => !(s == "")
  | .multi _ _ _ => true

/-- The receiver of `.toString()` in `escapeHtml(str = '')`: the default
parameter value `''` replaces `undefined`, a string is itself, and an array is
its elements joined by commas. -/
def QueryValue.jsToString : QueryValue → String
  | .absent => ""
  | .str s => s
  | .multi first second more => ",".intercalate (first :: second :: more)

/-- The parsed request: `parsedUrl.pathname` and the two entries of
`parsedUrl.query` the handler destructures. -/
structure Request where
  pathname : Option String
  code : QueryValue
  error : QueryValue
  deriving DecidableEq

/-- A call on the response object `res`. -/
inductive ResEvent where
  | writeHead (status : Nat) (headers : List (String × String))
  | endWith (body : String)
  deriving DecidableEq

/-! ## `escapeHtml` (source lines 13-22) -/

/-- The call `s.replace(/c/g, r)` for a one-character pattern `c` and a
replacement text `r` without `$`: every occurrence of `c` becomes `r`. -/
def replaceGlobal (c : Char) (r : String) (s : String) : String :=
  ⟨s.data.flatMap fun x => if x = c then r.data else [x]⟩

/-- The double quote character. -/
def dquote : Char := Char.ofNat 34

/-- The single quote character. -/
def squote : Char := Char.ofNat 39

/-- The chain of five global replacements of source lines 15-21, applied to a
string. -/
def escapeChain (s : String) : String :=
  replaceGlobal squote "&#039;"
    (replaceGlobal dquote "&quot;"
      (replaceGlobal '>' "&gt;"
        (replaceGlobal '<' "&lt;"
          (replaceGlobal '&' "&amp;" s))))

/-- The function `escapeHtml(str = '')` of source lines 14-22. -/
def escapeHtml (str : QueryValue) : String :=
  escapeChain str.jsToString

/-! ## The request handler (source lines 24-99) -/

/-- The headers object `{ 'Content-Type': 'text/html' }` passed to every
`res.writeHead`. -/
def htmlHeaders : List (String × String) := [("Content-Type", "text/html")]

/-- Template literal of the error page (source lines 32-41), the text before the interpolated value. -/
def errorPageHead : String :=
  "\n" ++
  "        <html>\n" ++
  "          <head><title>Authentication Error</title></head>\n" ++
  "          <body>\n" ++
  "            <h1>Authentication Error</h1>\n" ++
  "            <p>Error: "

/-- Template literal of the error page (source lines 32-41), the text after the interpolated value. -/
def errorPageTail : String :=
  "</p>\n" ++
  "            <p>You can close this window and try again.</p>\n" ++
  "          </body>\n" ++
  "        </html>\n" ++
  "      "

/-- Template literal of the success page (source lines 47-72), the text before the interpolated value. -/
def successPageHead : String :=
  "\n" ++
  "        <html>\n" ++
  "          <head><title>Authentication Success</title></head>\n" ++
  "          <body>\n" ++
  "            <h1>Authentication Successful!</h1>\n" ++
  "            <p>Copy this authorization code:</p>\n" ++
  "            <div style=\"background: #f0f0f0; padding: 10px; border-radius: 5px; font-family: monospace; font-size: 14px; word-break: break-all; margin: 10px 0;\">\n" ++
  "              "

/-- Template literal of the success page (source lines 47-72), the text after the interpolated value. -/
def successPageTail : String :=
  "\n" ++
  "            </div>\n" ++
  "            <p>Use this code with the <code>oauth_complete</code> tool in your MCP server.</p>\n" ++
  "            <p>You can close this window now.</p>\n" ++
  "            <script>\n" ++
  "              // Auto-select the code for easy copying\n" ++
  "              document.addEventListener('DOMContentLoaded', function() \x7b\n" ++
  "                const codeDiv = document.querySelector('div');\n" ++
  "                if (codeDiv) \x7b\n" ++
  "                  const range = document.createRange();\n" ++
  "                  range.selectNode(codeDiv);\n" ++
  "                  window.getSelection().removeAllRanges();\n" ++
  "                  window.getSelection().addRange(range);\n" ++
  "                \x7d\n" ++
  "              \x7d);\n" ++
  "            </script>\n" ++
  "          </body>\n" ++
  "        </html>\n" ++
  "      "

/-- Template literal of the missing-code page (source lines 75-84). -/
def noCodePage : String :=
  "\n" ++
  "        <html>\n" ++
  "          <head><title>Authentication Error</title></head>\n" ++
  "          <body>\n" ++
  "            <h1>Authentication Error</h1>\n" ++
  "            <p>No authorization code received.</p>\n" ++
  "            <p>You can close this window and try again.</p>\n" ++
  "          </body>\n" ++
  "        </html>\n" ++
  "      "

/-- Template literal of the not-found page (source lines 88-97). -/
def notFoundPage : String :=
  "\n" ++
  "      <html>\n" ++
  "        <head><title>Not Found</title></head>\n" ++
  "        <body>\n" ++
  "          <h1>404 - Not Found</h1>\n" ++
  "          <p>This is the OAuth callback server for Google MCP Server.</p>\n" ++
  "          <p>The correct callback URL is: <code>http://localhost:3000/auth/callback</code></p>\n" ++
  "        </body>\n" ++
  "      </html>\n" ++
  "    "

/-- The callback passed to `http.createServer` (source lines 24-99), as the
list of calls it makes on `res`. The `return` of line 42 ends the error branch,
so the test of `code` is reached only when `error` is falsy. -/
def handler (req : Request) : List ResEvent :=
  if req.pathname = some "/auth/callback" then
    if req.error.truthy then
      [.writeHead 400 htmlHeaders,
       .endWith (errorPageHead ++ escapeHtml req.error ++ errorPageTail)]
    else if req.code.truthy then
      [.writeHead 200 htmlHeaders,
       .endWith (successPageHead ++ escapeHtml req.code ++ successPageTail)]
    else
      [.writeHead 400 htmlHeaders, .endWith noCodePage]
  else
    [.writeHead 404 htmlHeaders, .endWith notFoundPage]

/-- The status code of a response: the first argument of the first
`writeHead`. -/
def statusOf : List ResEvent → Option Nat
  | [] => none
  | .writeHead st _ :: _ => some st
  | .endWith _ :: rest => statusOf rest

/-- The body of a response: the argument of the first call of `end`. -/
def bodyOf : List ResEvent → Option String
  | [] => none
  | .endWith b :: _ => some b
  | .writeHead _ _ :: rest => bodyOf rest

/-! ## Notions used to state the properties -/

/-- The image of one character under HTML escaping, as the specification
lists it: each of the five special characters becomes its entity, every other
character stays itself. -/
def escapeChar (x : Char) : String :=
  if x = '&' then "&amp;"
  else if x = '<' then "&lt;"
  else if x = '>' then "&gt;"
  else if x = dquote then "&quot;"
  else if x = squote then "&#039;"
  else String.singleton x

/-- The single left-to-right pass of the specification: every character is
mapped independently by `escapeChar` and the results are concatenated. -/
def escapeOnePass (s : String) : String :=
  ⟨s.data.flatMap fun x => (escapeChar x).data⟩

/-- The five entities produced by escaping. -/
def entities : List String := ["&amp;", "&lt;", "&gt;", "&quot;", "&#039;"]

/-- Replacement of every occurrence of a non-empty text `pat` by `rep`, scanning
from the left; `skip` counts the characters of a matched occurrence still to be
passed over. -/
def replaceTextAux (pat rep : List Char) : Nat → List Char → List Char
  | _, [] => []
  | skip + 1, _ :: xs => replaceTextAux pat rep skip xs
  | 0, x :: xs =>
    if pat.isPrefixOf (x :: xs) then rep ++ replaceTextAux pat rep (pat.length - 1) xs
    else x :: replaceTextAux pat rep 0 xs

/-- Replacement of every occurrence of the non-empty text `pat` by `rep`. -/
def replaceText (pat rep : String) (s : String) : String :=
  ⟨replaceTextAux pat.data rep.data 0 s.data⟩

/-- Un-escaping as the specification words it: the entities `&lt;`, `&gt;`,
`&quot;`, `&#039;` are replaced by their characters, and then `&amp;` by `&`. -/
def unescapeHtml (s : String) : String :=
  replaceText "&amp;" "&"
    (replaceText "&#039;" (String.singleton squote)
      (replaceText "&quot;" (String.singleton dquote)
        (replaceText "&gt;" ">"
          (replaceText "&lt;" "<" s))))

/-- The image of one character part-way through un-escaping: the characters of
`keep` are already restored, the other ones are still escaped. -/
def partialEscape (keep : List Char) (x : Char) : List Char :=
  if x ∈ keep then [x] else (escapeChar x).data

/-- The text `needle` occurs in `hay` as a contiguous block. -/
def contains (hay needle : String) : Prop := needle.data <:+: hay.data

instance (hay needle : String) : Decidable (contains hay needle) :=
  inferInstanceAs (Decidable (needle.data <:+: hay.data))

/-- The number of positions of the text at which `pat` occurs. -/
def countOcc (pat : List Char) : List Char → Nat
  | [] => 0
  | x :: xs => (if pat.isPrefixOf (x :: xs) then 1 else 0) + countOcc pat xs

/-- The number of occurrences of `pat` in `hay`. -/
def occurrences (pat hay : String) : Nat := countOcc pat.data hay.data

/-- The opening tag of the styled block of the success page (source line 53). -/
def styledDivOpen : String :=
  "<div style=\"background: #f0f0f0; padding: 10px; border-radius: 5px; font-family: monospace; font-size: 14px; word-break: break-all; margin: 10px 0;\">"

/-- The fixed script of the success page that selects the code (source lines
58-69). -/
def autoSelectScript : String :=
  "<script>\n" ++
  "              // Auto-select the code for easy copying\n" ++
  "              document.addEventListener('DOMContentLoaded', function() \x7b\n" ++
  "                const codeDiv = document.querySelector('div');\n" ++
  "                if (codeDiv) \x7b\n" ++
  "                  const range = document.createRange();\n" ++
  "                  range.selectNode(codeDiv);\n" ++
  "                  window.getSelection().removeAllRanges();\n" ++
  "                  window.getSelection().addRange(range);\n" ++
  "                \x7d\n" ++
  "              \x7d);\n" ++
  "            </script>"

/-- The callback URL for the configured port. -/
def callbackUrl : String := "http://localhost:" ++ toString PORT ++ "/auth/callback"

/-- The text `l` differs from `pat` at a position both of them have, so `pat`
is not a prefix of `l` however `l` is continued. -/
def clashes : List Char → List Char → Bool
  | [], _ => false
  | _ :: _, [] => false
  | p :: ps, y :: ys => p != y || clashes ps ys

/-- No occurrence of `pat` starts inside `l`, however `l` is continued. -/
def noStart (pat : List Char) : List Char → Bool
  | [] => true
  | y :: ys => clashes pat (y :: ys) && noStart pat ys

/-- A request whose parsed path is the callback path `/auth/callback`. -/
def callbackRequest (code error : QueryValue) : Request :=
  ⟨some "/auth/callback", code, error⟩

/-- The headers of a response: the second argument of the first `writeHead`. -/
def headersOf : List ResEvent → Option (List (String × String))
  | [] => none
  | .writeHead _ hs :: _ => some hs
  | .endWith _ :: rest => headersOf rest

/-- The character is one of the five that `escapeHtml` replaces. -/
def isSpecial (x : Char) : Bool :=
  x = '&' || x = '<' || x = '>' || x = dquote || x = squote

/-! ## The handler with exceptions made explicit

Two operations of the callback can throw. The call
`url.parse(req.url || '', true)` of source line 25 is library code: Node.js
documents that it throws a `URIError` when the auth part of the URL cannot be
decoded, as for the request target `http://%@x/auth/callback`. The method call
`str.toString()` of `escapeHtml` raises a `TypeError` when `str` is `null`
(`undefined` is replaced by the default `''` before). The program has no
`try`, so an exception leaves the callback. The definitions below follow the
same source lines as `escapeHtml` and `handler`, on JavaScript values that
include `null`, with the exception as a result. -/

/-- A JavaScript value the handler may hold in `code` or `error`. -/
inductive JsValue where
  | undefined
  | null
  | string (s : String)
  | array (vs : List String)

/-- JavaScript truthiness: `undefined`, `null` and the empty string are falsy,
every other string and every array is truthy. -/
def JsValue.truthy : JsValue → Bool
  | .undefined => false
  | .null => false
  | .string s => !(s == "")
  | .array _ => true

/-- The method call `.toString()`: it throws on `undefined` and `null`, gives
a string itself and an array as its elements joined by commas. -/
def JsValue.toStringCall : JsValue → Except String String
  | .undefined => .error "TypeError"
  | .null => .error "TypeError"
  | .string s => .ok s
  | .array vs => .ok (",".intercalate vs)

/-- The default parameter of `escapeHtml(str = '')`: `undefined` becomes `''`,
every other value, `null` too, is kept. -/
def JsValue.orEmpty : JsValue → JsValue
  | .undefined => .string ""
  | v => v

/-- The function `escapeHtml` of source lines 14-22 with the exception of
`toString` as a result. -/
def escapeHtmlJs (str : JsValue) : Except String String :=
  match str.orEmpty.toStringCall with
  | .error err => .error err
  | .ok s => .ok (escapeChain s)

/-- The value `parsedUrl` that `url.parse` returns, as far as the callback
reads it: `pathname` and the entries `code` and `error` of `query`. -/
structure ParsedUrl where
  pathname : Option String
  code : JsValue
  error : JsValue

/-- The callback of source lines 24-99 on JavaScript values. Its argument is
the outcome of the library call `url.parse(req.url || '', true)` of line 25:
the parsed URL, or the exception the library throws. The result is the list of
calls made on `res`, or the exception that leaves the callback: the one of
`url.parse`, before anything is called on `res`, or the one thrown while the
body is built. -/
def handlerJs (parsed : Except String ParsedUrl) : Except String (List ResEvent) :=
  match parsed with
  | .error err => .error err
  | .ok parsedUrl =>
    if parsedUrl.pathname = some "/auth/callback" then
      if parsedUrl.error.truthy then
        match escapeHtmlJs parsedUrl.error with
        | .error err => .error err
        | .ok escaped =>
          .ok [.writeHead 400 htmlHeaders,
               .endWith (errorPageHead ++ escaped ++ errorPageTail)]
      else if parsedUrl.code.truthy then
        match escapeHtmlJs parsedUrl.code with
        | .error err => .error err
        | .ok escaped =>
          .ok [.writeHead 200 htmlHeaders,
               .endWith (successPageHead ++ escaped ++ successPageTail)]
      else
        .ok [.writeHead 400 htmlHeaders, .endWith noCodePage]
    else
      .ok [.writeHead 404 htmlHeaders, .endWith notFoundPage]

/-- The JavaScript value of a query entry. -/
def QueryValue.toJs : QueryValue → JsValue
  | .absent => .undefined
  | .str s => .string s
  | .multi first second more => .array (first :: second :: more)

/-! ## Lemmas on `escapeHtml` -/

theorem char_cases (x : Char) :
    x = '&' ∨ x = '<' ∨ x = '>' ∨ x = dquote ∨ x = squote ∨
      (x ≠ '&' ∧ x ≠ '<' ∧ x ≠ '>' ∧ x ≠ dquote ∧ x ≠ squote ∧ '&' ≠ x) := by
  by_cases h1 : x = '&'
  · exact Or.inl h1
  by_cases h2 : x = '<'
  · exact Or.inr (Or.inl h2)
  by_cases h3 : x = '>'
  · exact Or.inr (Or.inr (Or.inl h3))
  by_cases h4 : x = dquote
  · exact Or.inr (Or.inr (Or.inr (Or.inl h4)))
  by_cases h5 : x = squote
  · exact Or.inr (Or.inr (Or.inr (Or.inr (Or.inl h5))))
  exact Or.inr (Or.inr (Or.inr (Or.inr (Or.inr ⟨h1, h2, h3, h4, h5, fun h => h1 h.symm⟩))))

theorem escapeChain_char (x : Char) :
    (escapeChain ⟨[x]⟩).data = (escapeChar x).data := by
  unfold escapeChar
  split_ifs with h1 h2 h3 h4 h5
  · subst h1; decide
  · subst h2; decide
  · subst h3; decide
  · subst h4; decide
  · subst h5; decide
  · simp [escapeChain, replaceGlobal, h1, h2, h3, h4, h5, String.singleton]

theorem escapeChain_mk (l : List Char) :
    (escapeChain ⟨l⟩).data = l.flatMap fun x => (escapeChar x).data := by
  induction l with
  | nil => rfl
  | cons x xs ih =>
    rw [List.flatMap_cons, ← ih, ← escapeChain_char]
    simp [escapeChain, replaceGlobal, List.flatMap_append]

theorem escapeChain_data (s : String) :
    (escapeChain s).data = s.data.flatMap fun x => (escapeChar x).data :=
  escapeChain_mk s.data

theorem escapeChain_append (a b : String) :
    escapeChain (a ++ b) = escapeChain a ++ escapeChain b := by
  apply String.ext
  simp [escapeChain_data, List.flatMap_append]

theorem replaceTextAux_flatMap (pat rep : List Char) (f g : Char → List Char)
    (h : ∀ x rest, replaceTextAux pat rep 0 (f x ++ rest) = g x ++ replaceTextAux pat rep 0 rest)
    (l : List Char) :
    replaceTextAux pat rep 0 (l.flatMap f) = l.flatMap g := by
  induction l with
  | nil => rfl
  | cons x xs ih => rw [List.flatMap_cons, h, ih, List.flatMap_cons]

theorem unescape_lt (x : Char) (rest : List Char) :
    replaceTextAux "&lt;".data "<".data 0 (partialEscape [] x ++ rest)
      = partialEscape ['<'] x ++ replaceTextAux "&lt;".data "<".data 0 rest := by
  rcases char_cases x with rfl | rfl | rfl | rfl | rfl | ⟨h1, h2, h3, h4, h5, h6⟩
  · simp [partialEscape, escapeChar, replaceTextAux, List.isPrefixOf, dquote, squote]
  · simp [partialEscape, escapeChar, replaceTextAux, List.isPrefixOf, dquote, squote]
  · simp [partialEscape, escapeChar, replaceTextAux, List.isPrefixOf, dquote, squote]
  · simp [partialEscape, escapeChar, replaceTextAux, List.isPrefixOf, dquote, squote]
  · simp [partialEscape, escapeChar, replaceTextAux, List.isPrefixOf, dquote, squote]
  · simp [partialEscape, escapeChar, replaceTextAux, List.isPrefixOf, String.singleton,
      h1, h2, h3, h4, h5, h6]

theorem unescape_gt (x : Char) (rest : List Char) :
    replaceTextAux "&gt;".data ">".data 0 (partialEscape ['<'] x ++ rest)
      = partialEscape ['<', '>'] x ++ replaceTextAux "&gt;".data ">".data 0 rest := by
  rcases char_cases x with rfl | rfl | rfl | rfl | rfl | ⟨h1, h2, h3, h4, h5, h6⟩
  · simp [partialEscape, escapeChar, replaceTextAux, List.isPrefixOf, dquote, squote]
  · simp [partialEscape, escapeChar, replaceTextAux, List.isPrefixOf, dquote, squote]
  · simp [partialEscape, escapeChar, replaceTextAux, List.isPrefixOf, dquote, squote]
  · simp [partialEscape, escapeChar, replaceTextAux, List.isPrefixOf, dquote, squote]
  · simp [partialEscape, escapeChar, replaceTextAux, List.isPrefixOf, dquote, squote]
  · simp [partialEscape, escapeChar, replaceTextAux, List.isPrefixOf, String.singleton,
      h1, h2, h3, h4, h5, h6]

theorem unescape_quot (x : Char) (rest : List Char) :
    replaceTextAux "&quot;".data [dquote] 0 (partialEscape ['<', '>'] x ++ rest)
      = partialEscape ['<', '>', dquote] x
          ++ replaceTextAux "&quot;".data [dquote] 0 rest := by
  rcases char_cases x with rfl | rfl | rfl | rfl | rfl | ⟨h1, h2, h3, h4, h5, h6⟩
  · simp [partialEscape, escapeChar, replaceTextAux, List.isPrefixOf, dquote, squote]
  · simp [partialEscape, escapeChar, replaceTextAux, List.isPrefixOf, dquote, squote]
  · simp [partialEscape, escapeChar, replaceTextAux, List.isPrefixOf, dquote, squote]
  · simp [partialEscape, escapeChar, replaceTextAux, List.isPrefixOf, dquote, squote]
  · simp [partialEscape, escapeChar, replaceTextAux, List.isPrefixOf, dquote, squote]
  · simp [partialEscape, escapeChar, replaceTextAux, List.isPrefixOf, String.singleton,
      h1, h2, h3, h4, h5, h6]

theorem unescape_apos (x : Char) (rest : List Char) :
    replaceTextAux "&#039;".data [squote] 0 (partialEscape ['<', '>', dquote] x ++ rest)
      = partialEscape ['<', '>', dquote, squote] x
          ++ replaceTextAux "&#039;".data [squote] 0 rest := by
  rcases char_cases x with rfl | rfl | rfl | rfl | rfl | ⟨h1, h2, h3, h4, h5, h6⟩
  · simp [partialEscape, escapeChar, replaceTextAux, List.isPrefixOf, dquote, squote]
  · simp [partialEscape, escapeChar, replaceTextAux, List.isPrefixOf, dquote, squote]
  · simp [partialEscape, escapeChar, replaceTextAux, List.isPrefixOf, dquote, squote]
  · simp [partialEscape, escapeChar, replaceTextAux, List.isPrefixOf, dquote, squote]
  · simp [partialEscape, escapeChar, replaceTextAux, List.isPrefixOf, dquote, squote]
  · simp [partialEscape, escapeChar, replaceTextAux, List.isPrefixOf, String.singleton,
      h1, h2, h3, h4, h5, h6]

theorem unescape_amp (x : Char) (rest : List Char) :
    replaceTextAux "&amp;".data "&".data 0
        (partialEscape ['<', '>', dquote, squote] x ++ rest)
      = [x] ++ replaceTextAux "&amp;".data "&".data 0 rest := by
  rcases char_cases x with rfl | rfl | rfl | rfl | rfl | ⟨h1, h2, h3, h4, h5, h6⟩
  · simp [partialEscape, escapeChar, replaceTextAux, List.isPrefixOf, dquote, squote]
  · simp [partialEscape, escapeChar, replaceTextAux, List.isPrefixOf, dquote, squote]
  · simp [partialEscape, escapeChar, replaceTextAux, List.isPrefixOf, dquote, squote]
  · simp [partialEscape, escapeChar, replaceTextAux, List.isPrefixOf, dquote, squote]
  · simp [partialEscape, escapeChar, replaceTextAux, List.isPrefixOf, dquote, squote]
  · simp [partialEscape, escapeChar, replaceTextAux, List.isPrefixOf, String.singleton,
      h1, h2, h3, h4, h5, h6]

theorem unescape_escapeChain (s : String) : unescapeHtml (escapeChain s) = s := by
  apply String.ext
  have h0 : (escapeChain s).data = s.data.flatMap (partialEscape []) := by
    rw [escapeChain_data]; rfl
  have e3 : (String.singleton dquote).data = [dquote] := rfl
  have e4 : (String.singleton squote).data = [squote] := rfl
  simp only [unescapeHtml, replaceText, h0]
  rw [replaceTextAux_flatMap _ _ _ _ unescape_lt, replaceTextAux_flatMap _ _ _ _ unescape_gt,
    e3, replaceTextAux_flatMap _ _ _ _ unescape_quot, e4,
    replaceTextAux_flatMap _ _ _ _ unescape_apos, replaceTextAux_flatMap _ _ _ _ unescape_amp]
  simp

/-- The characters of an escaped text are never `<`, `>`, the double quote or
the single quote. -/
theorem escapeChain_no_markup (s : String) (ch : Char) (h : ch ∈ (escapeChain s).data) :
    ch ≠ '<' ∧ ch ≠ '>' ∧ ch ≠ dquote ∧ ch ≠ squote := by
  rw [escapeChain_data, List.mem_flatMap] at h
  obtain ⟨x, -, hx⟩ := h
  rcases char_cases x with rfl | rfl | rfl | rfl | rfl | ⟨h1, h2, h3, h4, h5, h6⟩
  · simp [escapeChar, dquote, squote] at hx
    rcases hx with rfl | rfl | rfl | rfl | rfl <;> decide
  · simp [escapeChar, dquote, squote] at hx
    rcases hx with rfl | rfl | rfl | rfl <;> decide
  · simp [escapeChar, dquote, squote] at hx
    rcases hx with rfl | rfl | rfl | rfl <;> decide
  · simp [escapeChar, dquote, squote] at hx
    rcases hx with rfl | rfl | rfl | rfl | rfl | rfl <;> decide
  · simp [escapeChar, dquote, squote] at hx
    rcases hx with rfl | rfl | rfl | rfl | rfl | rfl <;> decide
  · simp [escapeChar, String.singleton, h1, h2, h3, h4, h5] at hx
    subst hx
    exact ⟨h2, h3, h4, h5⟩

/-- A text that opens with a block free of `c`: an occurrence of `c` lies after
the block. -/
theorem skip_block (c : Char) (tok : List Char) (htok : ∀ y ∈ tok, y ≠ c) :
    ∀ (pre post rest : List Char), tok ++ rest = pre ++ c :: post →
      ∃ pre2, pre = tok ++ pre2 ∧ rest = pre2 ++ c :: post := by
  induction tok with
  | nil => intro pre post rest h; exact ⟨pre, rfl, h⟩
  | cons y ys ih =>
    intro pre post rest h
    cases pre with
    | nil =>
      simp only [List.nil_append, List.cons_append, List.cons.injEq] at h
      exact absurd h.1 (htok y (List.mem_cons_self _ _))
    | cons p ps =>
      simp only [List.cons_append, List.cons.injEq] at h
      obtain ⟨pre2, h1, h2⟩ := ih (fun z hz => htok z (List.mem_cons_of_mem _ hz)) ps post rest h.2
      exact ⟨pre2, by rw [h.1, h1]; rfl, h2⟩

/-- Every `&` of a text escaped in one pass opens one of the five entities. -/
theorem amp_opens_entity (l : List Char) :
    ∀ pre post, (l.flatMap fun x => (escapeChar x).data) = pre ++ '&' :: post →
      ∃ e ∈ entities, e.data <+: '&' :: post := by
  induction l with
  | nil => intro pre post h; simp at h
  | cons x xs ih =>
    intro pre post h
    rw [List.flatMap_cons] at h
    have special : ∀ (e : String) (tl : List Char), e ∈ entities → e.data = '&' :: tl →
        (∀ y ∈ tl, y ≠ '&') → (escapeChar x).data = e.data →
        ∃ e ∈ entities, e.data <+: '&' :: post := by
      intro e tl he hd htl hx
      rw [hx, hd] at h
      cases pre with
      | nil =>
        simp only [List.nil_append, List.cons_append, List.cons.injEq, true_and] at h
        exact ⟨e, he, by rw [hd, ← h]; exact List.prefix_append _ _⟩
      | cons p ps =>
        simp only [List.cons_append, List.cons.injEq] at h
        obtain ⟨pre2, -, h2⟩ := skip_block '&' tl htl ps post _ h.2
        exact ih pre2 post h2
    rcases char_cases x with rfl | rfl | rfl | rfl | rfl | ⟨h1, h2, h3, h4, h5, h6⟩
    · exact special "&amp;" _ (by decide) rfl (by decide) (by decide)
    · exact special "&lt;" _ (by decide) rfl (by decide) (by decide)
    · exact special "&gt;" _ (by decide) rfl (by decide) (by decide)
    · exact special "&quot;" _ (by decide) rfl (by decide) (by decide)
    · exact special "&#039;" _ (by decide) rfl (by decide) (by decide)
    · have hx : (escapeChar x).data = [x] := by
        simp [escapeChar, String.singleton, h1, h2, h3, h4, h5]
      rw [hx] at h
      obtain ⟨pre2, -, h2⟩ := skip_block '&' [x] (by simpa using h1) pre post _ h
      exact ih pre2 post h2

/-! ## Lemmas on occurrences of a text -/

theorem countOcc_pos_of_infix (pat : List Char) (hp : pat ≠ []) :
    ∀ l : List Char, pat <:+: l → 0 < countOcc pat l := by
  intro l
  induction l with
  | nil => intro h; exact absurd (List.infix_nil.mp h) hp
  | cons x xs ih =>
    intro h
    rcases List.infix_cons_iff.mp h with h1 | h1
    · have : pat.isPrefixOf (x :: xs) = true := List.isPrefixOf_iff_prefix.mpr h1
      simp [countOcc, this]
    · have := ih h1
      simp only [countOcc]; omega

theorem clashes_isPrefixOf (pat : List Char) :
    ∀ l rest : List Char, clashes pat l = true → pat.isPrefixOf (l ++ rest) = false := by
  induction pat with
  | nil => intro l rest h; simp [clashes] at h
  | cons p ps ih =>
    intro l rest h
    cases l with
    | nil => simp [clashes] at h
    | cons y ys =>
      simp only [clashes, Bool.or_eq_true, bne_iff_ne, ne_eq] at h
      simp only [List.cons_append, List.isPrefixOf, Bool.and_eq_false_imp, beq_iff_eq]
      intro hpy
      rcases h with h | h
      · exact absurd hpy h
      · exact ih ys rest h

theorem countOcc_noStart (pat : List Char) :
    ∀ l rest : List Char, noStart pat l = true → countOcc pat (l ++ rest) = countOcc pat rest := by
  intro l
  induction l with
  | nil => intro rest _; rfl
  | cons y ys ih =>
    intro rest h
    simp only [noStart, Bool.and_eq_true] at h
    have h1 := clashes_isPrefixOf pat (y :: ys) rest h.1
    simp only [List.cons_append] at h1
    show (if pat.isPrefixOf (y :: (ys ++ rest)) = true then 1 else 0) + countOcc pat (ys ++ rest)
      = countOcc pat rest
    rw [h1, ih rest h.2]
    simp

theorem countOcc_skip (p : Char) (ps : List Char) :
    ∀ l rest : List Char, (∀ y ∈ l, y ≠ p) →
      countOcc (p :: ps) (l ++ rest) = countOcc (p :: ps) rest := by
  intro l
  induction l with
  | nil => intro rest _; rfl
  | cons y ys ih =>
    intro rest h
    have hy : ¬ p = y := fun e => h y (List.mem_cons_self _ _) e.symm
    have h1 : (p :: ps).isPrefixOf (y :: (ys ++ rest)) = false := by
      simp [List.isPrefixOf, hy]
    show (if (p :: ps).isPrefixOf (y :: (ys ++ rest)) = true then 1 else 0)
        + countOcc (p :: ps) (ys ++ rest) = countOcc (p :: ps) rest
    rw [h1, ih rest (fun z hz => h z (List.mem_cons_of_mem _ hz))]
    simp

/-! ## Lemmas on the handler -/

theorem truthy_str (s : String) : (QueryValue.str s).truthy = true ↔ s ≠ "" := by
  simp [QueryValue.truthy]

theorem truthy_false_iff (v : QueryValue) :
    v.truthy = false ↔ v = .absent ∨ v = .str "" := by
  cases v <;> simp [QueryValue.truthy]

theorem handler_error (c e : QueryValue) (he : e.truthy = true) :
    handler (callbackRequest c e)
      = [.writeHead 400 htmlHeaders,
         .endWith (errorPageHead ++ escapeHtml e ++ errorPageTail)] := by
  simp [handler, callbackRequest, he]

theorem handler_code (c e : QueryValue) (he : e.truthy = false) (hc : c.truthy = true) :
    handler (callbackRequest c e)
      = [.writeHead 200 htmlHeaders,
         .endWith (successPageHead ++ escapeHtml c ++ successPageTail)] := by
  simp [handler, callbackRequest, he, hc]

theorem handler_no_code (c e : QueryValue) (he : e.truthy = false) (hc : c.truthy = false) :
    handler (callbackRequest c e) = [.writeHead 400 htmlHeaders, .endWith noCodePage] := by
  simp [handler, callbackRequest, he, hc]

theorem handler_not_found (req : Request) (h : req.pathname ≠ some "/auth/callback") :
    handler req = [.writeHead 404 htmlHeaders, .endWith notFoundPage] := by
  simp [handler, h]

theorem contains_middle (a b c : String) : contains (a ++ b ++ c) b := by
  unfold contains
  rw [String.data_append, String.data_append]
  exact ⟨a.data, c.data, rfl⟩

/-! ## Properties of `escapeHtml` -/

/-- Claim C1 (round trip): for every string `s`, un-escaping `escapeHtml(s)`
(the entities `&lt;`, `&gt;`, `&quot;`, `&#039;` back to their characters, and
then `&amp;` back to `&`) gives `s` again. -/
theorem escapeHtml_round_trip (s : String) :
    unescapeHtml (escapeHtml (.str s)) = s :=
  unescape_escapeChain s

/-- Claim C2: for every string `s`, no character of `escapeHtml(s)` is `<`,
`>`, a double quote or a single quote, and at every `&` of `escapeHtml(s)` one
of the five entities starts. -/
theorem escapeHtml_no_unescaped (s : String) :
    (∀ ch ∈ (escapeHtml (.str s)).data,
        ch ≠ '<' ∧ ch ≠ '>' ∧ ch ≠ dquote ∧ ch ≠ squote) ∧
    (∀ pre post : List Char, (escapeHtml (.str s)).data = pre ++ '&' :: post →
        ∃ e ∈ entities, e.data <+: '&' :: post) := by
  refine ⟨fun ch h => escapeChain_no_markup s ch h, fun pre post h => ?_⟩
  have h2 : (escapeHtml (.str s)).data = s.data.flatMap fun x => (escapeChar x).data :=
    escapeChain_data s
  rw [h2] at h
  exact amp_opens_entity s.data pre post h

/-- Witness at the string `<&`, whose escaped form is `&lt;&amp;`: the second
`&` opens the entity `&amp;`, and the character `l` is not `<`. -/
theorem escapeHtml_no_unescaped_witness :
    (escapeHtml (.str "<&")).data = "&lt;".data ++ '&' :: "amp;".data ∧
    (∃ e ∈ entities, e.data <+: '&' :: "amp;".data) ∧
    ('l' ∈ (escapeHtml (.str "<&")).data ∧ 'l' ≠ '<') :=
  ⟨by decide,
   (escapeHtml_no_unescaped "<&").2 "&lt;".data "amp;".data (by decide),
   by decide, ((escapeHtml_no_unescaped "<&").1 'l' (by decide)).1⟩

/-- Claim C10 (no double escaping): for every string `s`, the five chained
global replacements of `escapeHtml` give the same text as one left-to-right
pass that maps every character independently and concatenates the results. -/
theorem escapeHtml_eq_onePass (s : String) :
    escapeHtml (.str s) = escapeOnePass s :=
  String.ext (escapeChain_data s)

/-! ## Properties of the handler -/

/-- Claim C3: on the callback path, with `error` absent or empty and a
non-empty `code` string `c`, the handler answers 200, and the body holds
`escapeHtml(c)` between the opening and the closing tag of the styled block,
with the fixed auto-select script further on. -/
theorem code_gives_success_page (c : String) (e : QueryValue) (hc : c ≠ "")
    (he : e = .absent ∨ e = .str "") :
    statusOf (handler (callbackRequest (.str c) e)) = some 200 ∧
    bodyOf (handler (callbackRequest (.str c) e))
      = some (successPageHead ++ escapeHtml (.str c) ++ successPageTail) ∧
    contains (successPageHead ++ escapeHtml (.str c) ++ successPageTail)
      (escapeHtml (.str c)) ∧
    ∃ pre mid post : String,
      successPageHead ++ escapeHtml (.str c) ++ successPageTail
        = pre ++ styledDivOpen ++ "\n              " ++ escapeHtml (.str c)
            ++ "\n            </div>" ++ mid ++ autoSelectScript ++ post := by
  have h := handler_code (.str c) e ((truthy_false_iff e).mpr he) ((truthy_str c).mpr hc)
  refine ⟨by rw [h]; rfl, by rw [h]; rfl, contains_middle _ _ _, ?_⟩
  have hHead : successPageHead =
      "\n        <html>\n          <head><title>Authentication Success</title></head>\n          <body>\n            <h1>Authentication Successful!</h1>\n            <p>Copy this authorization code:</p>\n            "
        ++ styledDivOpen ++ "\n              " := by decide
  have hTail : successPageTail =
      "\n            </div>"
        ++ "\n            <p>Use this code with the <code>oauth_complete</code> tool in your MCP server.</p>\n            <p>You can close this window now.</p>\n            "
        ++ autoSelectScript ++ "\n          </body>\n        </html>\n      " := by decide
  refine ⟨"\n        <html>\n          <head><title>Authentication Success</title></head>\n          <body>\n            <h1>Authentication Successful!</h1>\n            <p>Copy this authorization code:</p>\n            ",
    "\n            <p>Use this code with the <code>oauth_complete</code> tool in your MCP server.</p>\n            <p>You can close this window now.</p>\n            ",
    "\n          </body>\n        </html>\n      ", ?_⟩
  rw [hHead, hTail]
  simp only [String.append_assoc]

/-- Witness: `code=ABC123` gives 200 and a body that holds `ABC123`. -/
theorem code_gives_success_page_witness :
    "ABC123" ≠ "" ∧
    statusOf (handler (callbackRequest (.str "ABC123") .absent)) = some 200 ∧
    escapeHtml (.str "ABC123") = "ABC123" ∧
    contains (successPageHead ++ escapeHtml (.str "ABC123") ++ successPageTail)
      (escapeHtml (.str "ABC123")) :=
  ⟨by decide,
   (code_gives_success_page "ABC123" .absent (by decide) (Or.inl rfl)).1,
   by decide,
   (code_gives_success_page "ABC123" .absent (by decide) (Or.inl rfl)).2.2.1⟩

/-- Claim C4: on the callback path, with a non-empty `error` string `e`, the
handler answers 400 and the body holds `Error: ` followed by `escapeHtml(e)`,
whatever `code` is. -/
theorem error_gives_error_page (e : String) (c : QueryValue) (he : e ≠ "") :
    statusOf (handler (callbackRequest c (.str e))) = some 400 ∧
    bodyOf (handler (callbackRequest c (.str e)))
      = some (errorPageHead ++ escapeHtml (.str e) ++ errorPageTail) ∧
    contains (errorPageHead ++ escapeHtml (.str e) ++ errorPageTail)
      ("Error: " ++ escapeHtml (.str e)) := by
  have h := handler_error c (.str e) ((truthy_str e).mpr he)
  refine ⟨by rw [h]; rfl, by rw [h]; rfl, ?_⟩
  have hHead : errorPageHead =
      "\n        <html>\n          <head><title>Authentication Error</title></head>\n          <body>\n            <h1>Authentication Error</h1>\n            <p>"
        ++ "Error: " := by decide
  rw [hHead, String.append_assoc _ "Error: " _]
  exact contains_middle _ _ _

/-- Witness: `error=access_denied` gives 400 and a body that holds
`access_denied`, also when a code is sent along. -/
theorem error_gives_error_page_witness :
    "access_denied" ≠ "" ∧
    statusOf (handler (callbackRequest (.str "ABC123") (.str "access_denied"))) = some 400 ∧
    statusOf (handler (callbackRequest .absent (.str "access_denied"))) = some 400 ∧
    escapeHtml (.str "access_denied") = "access_denied" ∧
    contains (errorPageHead ++ escapeHtml (.str "access_denied") ++ errorPageTail)
      ("Error: " ++ escapeHtml (.str "access_denied")) :=
  ⟨by decide,
   (error_gives_error_page "access_denied" (.str "ABC123") (by decide)).1,
   (error_gives_error_page "access_denied" .absent (by decide)).1,
   by decide,
   (error_gives_error_page "access_denied" .absent (by decide)).2.2⟩

/-- Claim C5: every request whose path is not `/auth/callback` is answered
404 with the not-found page, whatever its query, and that page holds the
callback URL `http://localhost:3000/auth/callback`, 3000 being `PORT`. -/
theorem other_path_gives_not_found (req : Request)
    (h : req.pathname ≠ some "/auth/callback") :
    statusOf (handler req) = some 404 ∧
    bodyOf (handler req) = some notFoundPage ∧
    contains notFoundPage callbackUrl ∧
    callbackUrl = "http://localhost:3000/auth/callback" := by
  have h1 := handler_not_found req h
  exact ⟨by rw [h1]; rfl, by rw [h1]; rfl, by decide, by decide⟩

/-- Witness: the paths `/random/path`, `/auth/callback/` and `/AUTH/CALLBACK`
give 404, also with `code` or `error` in the query. -/
theorem other_path_gives_not_found_witness :
    statusOf (handler ⟨some "/random/path", .absent, .absent⟩) = some 404 ∧
    statusOf (handler ⟨some "/auth/callback/", .str "ABC123", .absent⟩) = some 404 ∧
    statusOf (handler ⟨some "/AUTH/CALLBACK", .absent, .str "access_denied"⟩) = some 404 :=
  ⟨(other_path_gives_not_found ⟨some "/random/path", .absent, .absent⟩ (by decide)).1,
   (other_path_gives_not_found ⟨some "/auth/callback/", .str "ABC123", .absent⟩
      (by decide)).1,
   (other_path_gives_not_found ⟨some "/AUTH/CALLBACK", .absent, .str "access_denied"⟩
      (by decide)).1⟩

/-- Claim C6: on the callback path, when neither `error` nor `code` is
present, each of the two being absent or the empty string, the handler answers
400 and the body holds the text `No authorization code received.`. -/
theorem nothing_gives_no_code_page (c e : QueryValue)
    (hc : c = .absent ∨ c = .str "") (he : e = .absent ∨ e = .str "") :
    statusOf (handler (callbackRequest c e)) = some 400 ∧
    bodyOf (handler (callbackRequest c e)) = some noCodePage ∧
    contains noCodePage "No authorization code received." := by
  have h := handler_no_code c e ((truthy_false_iff e).mpr he) ((truthy_false_iff c).mpr hc)
  exact ⟨by rw [h]; rfl, by rw [h]; rfl, by decide⟩

/-- Witness: the request `/auth/callback` without query gives 400 and the
missing-code page, and so do the three requests with an empty `code`, an empty
`error`, or both. -/
theorem nothing_gives_no_code_page_witness :
    statusOf (handler (callbackRequest .absent .absent)) = some 400 ∧
    bodyOf (handler (callbackRequest .absent .absent)) = some noCodePage ∧
    bodyOf (handler (callbackRequest (.str "") .absent)) = some noCodePage ∧
    bodyOf (handler (callbackRequest .absent (.str ""))) = some noCodePage ∧
    bodyOf (handler (callbackRequest (.str "") (.str ""))) = some noCodePage :=
  ⟨(nothing_gives_no_code_page .absent .absent (Or.inl rfl) (Or.inl rfl)).1,
   (nothing_gives_no_code_page .absent .absent (Or.inl rfl) (Or.inl rfl)).2.1,
   (nothing_gives_no_code_page (.str "") .absent (Or.inr rfl) (Or.inl rfl)).2.1,
   (nothing_gives_no_code_page .absent (.str "") (Or.inl rfl) (Or.inr rfl)).2.1,
   (nothing_gives_no_code_page (.str "") (.str "") (Or.inr rfl) (Or.inr rfl)).2.1⟩

/-- No occurrence of a text that opens with `<` starts in the page head or in
an escaped value: all of them start in the text after the value. -/
theorem occurrences_successPage (ps : List Char) (s : String)
    (hHead : noStart ('<' :: ps) successPageHead.data = true) :
    countOcc ('<' :: ps) (successPageHead ++ escapeChain s ++ successPageTail).data
      = countOcc ('<' :: ps) successPageTail.data := by
  rw [String.data_append, String.data_append, List.append_assoc,
    countOcc_noStart _ _ _ hHead]
  exact countOcc_skip '<' ps _ _ fun y hy => (escapeChain_no_markup s y hy).1

/-- Claim C7 (no script injection on the success page): for every non-empty
code `c`, with `error` absent or empty, the 200 body holds the text `<script>`
once and `</script>` once, both inside the fixed text that follows the code;
for `c = <script>alert(1)</script>` the body holds `&lt;script&gt;` and does
not hold `<script>alert(1)</script>`. -/
theorem success_page_has_only_fixed_script (c : String) (e : QueryValue) (hc : c ≠ "")
    (he : e = .absent ∨ e = .str "") :
    statusOf (handler (callbackRequest (.str c) e)) = some 200 ∧
    bodyOf (handler (callbackRequest (.str c) e))
      = some (successPageHead ++ escapeHtml (.str c) ++ successPageTail) ∧
    occurrences "<script>" (successPageHead ++ escapeHtml (.str c) ++ successPageTail) = 1 ∧
    occurrences "</script>" (successPageHead ++ escapeHtml (.str c) ++ successPageTail) = 1 ∧
    occurrences "<script>" successPageTail = 1 ∧
    occurrences "</script>" successPageTail = 1 ∧
    bodyOf (handler (callbackRequest (.str "<script>alert(1)</script>") e))
      = some (successPageHead ++ "&lt;script&gt;alert(1)&lt;/script&gt;" ++ successPageTail) ∧
    contains (successPageHead ++ "&lt;script&gt;alert(1)&lt;/script&gt;" ++ successPageTail)
      "&lt;script&gt;" ∧
    ¬ contains (successPageHead ++ "&lt;script&gt;alert(1)&lt;/script&gt;" ++ successPageTail)
      "<script>alert(1)</script>" := by
  have h := handler_code (.str c) e ((truthy_false_iff e).mpr he) ((truthy_str c).mpr hc)
  have hx := handler_code (.str "<script>alert(1)</script>") e
    ((truthy_false_iff e).mpr he) (by decide)
  have hesc : escapeHtml (.str "<script>alert(1)</script>")
      = "&lt;script&gt;alert(1)&lt;/script&gt;" := by decide
  have open1 : occurrences "<script>" successPageTail = 1 := by decide
  have close1 : occurrences "</script>" successPageTail = 1 := by decide
  refine ⟨by rw [h]; rfl, by rw [h]; rfl, ?_, ?_, open1, close1, ?_, ?_, ?_⟩
  · exact (occurrences_successPage "script>".data c (by decide)).trans open1
  · exact (occurrences_successPage "/script>".data c (by decide)).trans close1
  · rw [hx, hesc]; rfl
  · have hsplit : ("&lt;script&gt;alert(1)&lt;/script&gt;" : String)
        = "" ++ "&lt;script&gt;" ++ "alert(1)&lt;/script&gt;" := by decide
    unfold contains
    rw [hsplit]
    simp only [String.data_append]
    exact ⟨successPageHead.data ++ "".data, "alert(1)&lt;/script&gt;".data ++ successPageTail.data,
      by simp only [List.append_assoc]⟩
  · intro hin
    have hpos := countOcc_pos_of_infix "<script>alert(1)</script>".data (by decide) _ hin
    have hzero : countOcc "<script>alert(1)</script>".data
        (successPageHead ++ "&lt;script&gt;alert(1)&lt;/script&gt;" ++ successPageTail).data
        = 0 := by
      have := occurrences_successPage "script>alert(1)</script>".data
        "<script>alert(1)</script>" (by decide)
      rw [show escapeChain "<script>alert(1)</script>"
        = "&lt;script&gt;alert(1)&lt;/script&gt;" from hesc] at this
      exact this.trans (by decide)
    omega

/-- Witness at the code `<script>alert(1)</script>`: the body holds `<script>`
once. -/
theorem success_page_has_only_fixed_script_witness :
    "<script>alert(1)</script>" ≠ "" ∧
    occurrences "<script>"
      (successPageHead ++ escapeHtml (.str "<script>alert(1)</script>") ++ successPageTail)
      = 1 :=
  ⟨by decide,
   (success_page_has_only_fixed_script "<script>alert(1)</script>" .absent (by decide)
      (Or.inl rfl)).2.2.1⟩

/-- Claim C8: on the callback path an empty-string parameter is treated as an
absent one: the calls made on the response are the same for `code` empty and
`code` absent, and the same for `error` empty and `error` absent; an empty
`error` with a non-empty `code` gives the 200 page, and an empty `code` with no
`error` gives the 400 page with `No authorization code received.`. -/
theorem empty_parameter_is_absent :
    (∀ e : QueryValue,
      handler (callbackRequest (.str "") e) = handler (callbackRequest .absent e)) ∧
    (∀ c : QueryValue,
      handler (callbackRequest c (.str "")) = handler (callbackRequest c .absent)) ∧
    (∀ c : String, c ≠ "" →
      statusOf (handler (callbackRequest (.str c) (.str ""))) = some 200 ∧
      bodyOf (handler (callbackRequest (.str c) (.str "")))
        = some (successPageHead ++ escapeHtml (.str c) ++ successPageTail)) ∧
    statusOf (handler (callbackRequest (.str "") .absent)) = some 400 ∧
    bodyOf (handler (callbackRequest (.str "") .absent)) = some noCodePage ∧
    contains noCodePage "No authorization code received." := by
  refine ⟨fun e => ?_, fun c => ?_, fun c hc => ?_, ?_, ?_, by decide⟩
  · simp [handler, callbackRequest, QueryValue.truthy]
  · simp [handler, callbackRequest, QueryValue.truthy]
  · have h := handler_code (.str c) (.str "") rfl ((truthy_str c).mpr hc)
    exact ⟨by rw [h]; rfl, by rw [h]; rfl⟩
  · rw [handler_no_code (.str "") .absent rfl rfl]; rfl
  · rw [handler_no_code (.str "") .absent rfl rfl]; rfl

/-- Witness: `error` empty with `code=ABC123` gives 200. -/
theorem empty_parameter_is_absent_witness :
    "ABC123" ≠ "" ∧
    statusOf (handler (callbackRequest (.str "ABC123") (.str ""))) = some 200 :=
  ⟨by decide, (empty_parameter_is_absent.2.2.1 "ABC123" (by decide)).1⟩

/-- Claim C9: the status of every response is 200, 400 or 404; it is 404
exactly when the path is not `/auth/callback`; it is 200 exactly when the path
is `/auth/callback`, `error` is absent or empty and `code` is neither absent
nor empty; it is 400 exactly in the remaining cases, that is on the callback
path with `error` neither absent nor empty, or with both `error` and `code`
absent or empty. -/
theorem status_characterised (req : Request) :
    (statusOf (handler req) = some 200 ∨ statusOf (handler req) = some 400 ∨
      statusOf (handler req) = some 404) ∧
    (statusOf (handler req) = some 404 ↔ req.pathname ≠ some "/auth/callback") ∧
    (statusOf (handler req) = some 200 ↔
      req.pathname = some "/auth/callback" ∧
      (req.error = .absent ∨ req.error = .str "") ∧
      (req.code ≠ .absent ∧ req.code ≠ .str "")) ∧
    (statusOf (handler req) = some 400 ↔
      req.pathname = some "/auth/callback" ∧
      ((req.error ≠ .absent ∧ req.error ≠ .str "") ∨
       ((req.error = .absent ∨ req.error = .str "") ∧
        (req.code = .absent ∨ req.code = .str "")))) := by
  obtain ⟨p, c, e⟩ := req
  have hc := truthy_false_iff c
  have he := truthy_false_iff e
  by_cases hp : p = some "/auth/callback"
  · subst hp
    cases hte : e.truthy
    · have he1 := he.mp hte
      cases htc : c.truthy
      · have hc1 := hc.mp htc
        have h : handler ⟨some "/auth/callback", c, e⟩ = _ := handler_no_code c e hte htc
        rw [h]
        simp only [statusOf]
        simp
        tauto
      · have hc1 : ¬ (c = .absent ∨ c = .str "") := fun h => by
          rw [hc.mpr h] at htc; exact Bool.noConfusion htc
        have h : handler ⟨some "/auth/callback", c, e⟩ = _ := handler_code c e hte htc
        rw [h]
        simp only [statusOf]
        simp
        tauto
    · have he1 : ¬ (e = .absent ∨ e = .str "") := fun h => by
        rw [he.mpr h] at hte; exact Bool.noConfusion hte
      have h : handler ⟨some "/auth/callback", c, e⟩ = _ := handler_error c e hte
      rw [h]
      simp only [statusOf]
      simp
      tauto
  · rw [handler_not_found ⟨p, c, e⟩ hp]
    simp only [statusOf]
    simp [hp]

/-! ## Lemmas on texts with and without special characters -/

theorem isSpecial_false_iff (x : Char) :
    isSpecial x = false ↔ x ≠ '&' ∧ x ≠ '<' ∧ x ≠ '>' ∧ x ≠ dquote ∧ x ≠ squote := by
  simp [isSpecial, and_assoc]

theorem escapeChar_plain (x : Char) (h : isSpecial x = false) :
    (escapeChar x).data = [x] := by
  obtain ⟨h1, h2, h3, h4, h5⟩ := (isSpecial_false_iff x).mp h
  simp [escapeChar, String.singleton, h1, h2, h3, h4, h5]

theorem escapeChar_special (x : Char) (h : isSpecial x = true) :
    ∃ tl, (escapeChar x).data = '&' :: tl ∧ 1 ≤ tl.length := by
  rcases char_cases x with rfl | rfl | rfl | rfl | rfl | ⟨h1, h2, h3, h4, h5, -⟩
  · exact ⟨"amp;".data, by decide, by decide⟩
  · exact ⟨"lt;".data, by decide, by decide⟩
  · exact ⟨"gt;".data, by decide, by decide⟩
  · exact ⟨"quot;".data, by decide, by decide⟩
  · exact ⟨"#039;".data, by decide, by decide⟩
  · rw [(isSpecial_false_iff x).mpr ⟨h1, h2, h3, h4, h5⟩] at h
    exact Bool.noConfusion h

theorem escapeChar_length (x : Char) : 1 ≤ (escapeChar x).data.length := by
  cases h : isSpecial x
  · rw [escapeChar_plain x h]; exact Nat.le_refl 1
  · obtain ⟨tl, htl, -⟩ := escapeChar_special x h
    rw [htl]; simp

theorem onePass_plain (l : List Char) (h : ∀ x ∈ l, isSpecial x = false) :
    (l.flatMap fun x => (escapeChar x).data) = l := by
  induction l with
  | nil => rfl
  | cons x xs ih =>
    rw [List.flatMap_cons, escapeChar_plain x (h x (List.mem_cons_self _ _)),
      ih fun y hy => h y (List.mem_cons_of_mem _ hy)]
    rfl

theorem onePass_length (l : List Char) :
    l.length ≤ (l.flatMap fun x => (escapeChar x).data).length := by
  induction l with
  | nil => exact Nat.le_refl 0
  | cons x xs ih =>
    rw [List.flatMap_cons, List.length_append, List.length_cons]
    have := escapeChar_length x
    omega

theorem onePass_longer (l : List Char) (h : ∃ x ∈ l, isSpecial x = true) :
    l.length < (l.flatMap fun x => (escapeChar x).data).length := by
  induction l with
  | nil => obtain ⟨x, hx, -⟩ := h; exact absurd hx (List.not_mem_nil x)
  | cons y ys ih =>
    rw [List.flatMap_cons, List.length_append, List.length_cons]
    obtain ⟨x, hx, hs⟩ := h
    rcases List.mem_cons.mp hx with rfl | hmem
    · obtain ⟨tl, htl, hlen⟩ := escapeChar_special x hs
      have := onePass_length ys
      rw [htl, List.length_cons]
      omega
    · have := ih ⟨x, hmem, hs⟩
      have := escapeChar_length y
      omega

theorem onePass_has_amp (l : List Char) (h : ∃ x ∈ l, isSpecial x = true) :
    '&' ∈ l.flatMap fun x => (escapeChar x).data := by
  obtain ⟨x, hx, hs⟩ := h
  obtain ⟨tl, htl, -⟩ := escapeChar_special x hs
  exact List.mem_flatMap.mpr ⟨x, hx, by rw [htl]; exact List.mem_cons_self _ _⟩

theorem onePass_fixed_iff (l : List Char) :
    (l.flatMap fun x => (escapeChar x).data) = l ↔ ∀ x ∈ l, isSpecial x = false := by
  constructor
  · intro h x hx
    cases hs : isSpecial x
    · rfl
    · have := onePass_longer l ⟨x, hx, hs⟩
      rw [h] at this
      exact absurd this (Nat.lt_irrefl _)
  · exact onePass_plain l

theorem escapeChain_fixed_iff (s : String) :
    escapeChain s = s ↔ ∀ x ∈ s.data, isSpecial x = false := by
  rw [← onePass_fixed_iff, ← escapeChain_data]
  constructor
  · intro h; rw [h]
  · exact String.ext

theorem escapeChain_twice_iff (s : String) :
    escapeChain (escapeChain s) = escapeChain s ↔ ∀ x ∈ s.data, isSpecial x = false := by
  rw [escapeChain_fixed_iff (escapeChain s)]
  constructor
  · intro h x hx
    cases hs : isSpecial x
    · rfl
    · have hamp : '&' ∈ (escapeChain s).data := by
        rw [escapeChain_data]; exact onePass_has_amp s.data ⟨x, hx, hs⟩
      exact absurd (h '&' hamp) (by decide)
  · intro h
    rw [(escapeChain_fixed_iff s).mpr h]
    exact h

theorem toStringCall_toJs (v : QueryValue) :
    v.toJs.orEmpty.toStringCall = .ok v.jsToString := by
  cases v <;> rfl

theorem escapeHtmlJs_toJs (v : QueryValue) : escapeHtmlJs v.toJs = .ok (escapeHtml v) := by
  unfold escapeHtmlJs
  rw [toStringCall_toJs]
  rfl

theorem truthy_toJs (v : QueryValue) : v.toJs.truthy = v.truthy := by
  cases v <;> rfl

/-! ## Further properties -/

/-- Claim C11: a non-empty code `c` free of the five special characters is
left unchanged by `escapeHtml` and stands verbatim in the 200 body (callback
path, `error` absent or empty); a non-empty error `e` free of them is left
unchanged and stands verbatim in the 400 body. -/
theorem plain_values_shown_verbatim (c e : String) (e0 c0 : QueryValue)
    (hc : c ≠ "")
    (hcp : ∀ ch ∈ c.data, ch ≠ '&' ∧ ch ≠ '<' ∧ ch ≠ '>' ∧ ch ≠ dquote ∧ ch ≠ squote)
    (he0 : e0 = .absent ∨ e0 = .str "")
    (he : e ≠ "")
    (hep : ∀ ch ∈ e.data, ch ≠ '&' ∧ ch ≠ '<' ∧ ch ≠ '>' ∧ ch ≠ dquote ∧ ch ≠ squote) :
    (escapeHtml (.str c) = c ∧
     statusOf (handler (callbackRequest (.str c) e0)) = some 200 ∧
     bodyOf (handler (callbackRequest (.str c) e0))
       = some (successPageHead ++ c ++ successPageTail) ∧
     contains (successPageHead ++ c ++ successPageTail) c) ∧
    (escapeHtml (.str e) = e ∧
     statusOf (handler (callbackRequest c0 (.str e))) = some 400 ∧
     bodyOf (handler (callbackRequest c0 (.str e)))
       = some (errorPageHead ++ e ++ errorPageTail) ∧
     contains (errorPageHead ++ e ++ errorPageTail) e) := by
  have hce : escapeHtml (.str c) = c :=
    (escapeChain_fixed_iff c).mpr fun x hx => (isSpecial_false_iff x).mpr (hcp x hx)
  have hee : escapeHtml (.str e) = e :=
    (escapeChain_fixed_iff e).mpr fun x hx => (isSpecial_false_iff x).mpr (hep x hx)
  have h1 := handler_code (.str c) e0 ((truthy_false_iff e0).mpr he0) ((truthy_str c).mpr hc)
  have h2 := handler_error c0 (.str e) ((truthy_str e).mpr he)
  rw [hce] at h1
  rw [hee] at h2
  exact ⟨⟨hce, by rw [h1]; rfl, by rw [h1]; rfl, contains_middle _ _ _⟩,
    ⟨hee, by rw [h2]; rfl, by rw [h2]; rfl, contains_middle _ _ _⟩⟩

/-- Witness: the code `ABC123` stands verbatim in the 200 body and the error
`access_denied` stands verbatim in the 400 body. -/
theorem plain_values_shown_verbatim_witness :
    bodyOf (handler (callbackRequest (.str "ABC123") .absent))
      = some (successPageHead ++ "ABC123" ++ successPageTail) ∧
    bodyOf (handler (callbackRequest .absent (.str "access_denied")))
      = some (errorPageHead ++ "access_denied" ++ errorPageTail) :=
  ⟨(plain_values_shown_verbatim "ABC123" "access_denied" .absent .absent (by decide)
      (by decide) (Or.inl rfl) (by decide) (by decide)).1.2.2.1,
   (plain_values_shown_verbatim "ABC123" "access_denied" .absent .absent (by decide)
      (by decide) (Or.inl rfl) (by decide) (by decide)).2.2.2.1⟩

/-- Claim C12, amended: once `url.parse` has returned, the handler never
throws and answers exactly once. For every parsed path and all JavaScript
values of `code` and `error`, the calls made on the response are one
`writeHead` followed by one `end`, and no exception is raised, although
`escapeHtml(null)` alone does throw; on a path and query values that are
absent, strings or arrays of a repeated parameter the calls are those of
`handler`. -/
theorem handler_answers_once_when_parsed (req : Request) :
    (∀ (p : Option String) (c e : JsValue), ∃ st body,
      handlerJs (.ok ⟨p, c, e⟩) = .ok [.writeHead st htmlHeaders, .endWith body]) ∧
    handlerJs (.ok ⟨req.pathname, req.code.toJs, req.error.toJs⟩) = .ok (handler req) ∧
    (∃ st body, handler req = [.writeHead st htmlHeaders, .endWith body]) ∧
    escapeHtmlJs .null = .error "TypeError" := by
  refine ⟨?_, ?_, ?_, rfl⟩
  · intro p c e
    have key : ∀ v : JsValue, v.truthy = true → ∃ t, escapeHtmlJs v = .ok t := by
      intro v hv
      cases v with
      | undefined => exact Bool.noConfusion hv
      | null => exact Bool.noConfusion hv
      | string t => exact ⟨_, rfl⟩
      | array vs => exact ⟨_, rfl⟩
    simp only [handlerJs]
    split_ifs with hp he hc
    · obtain ⟨t, ht⟩ := key e he
      rw [ht]; exact ⟨_, _, rfl⟩
    · obtain ⟨t, ht⟩ := key c hc
      rw [ht]; exact ⟨_, _, rfl⟩
    · exact ⟨_, _, rfl⟩
    · exact ⟨_, _, rfl⟩
  · obtain ⟨p, c, e⟩ := req
    simp only [handlerJs, handler, truthy_toJs, escapeHtmlJs_toJs]
    split_ifs <;> rfl
  · unfold handler
    split_ifs
    · exact ⟨_, _, rfl⟩
    · exact ⟨_, _, rfl⟩
    · exact ⟨_, _, rfl⟩
    · exact ⟨_, _, rfl⟩

/-- The handler is not total on its requests: when `url.parse` throws, as it
does with a `URIError` on the request target `http://%@x/auth/callback`, the
exception leaves the callback and no response is produced. -/
theorem handler_throws_when_parse_throws :
    handlerJs (.error "URIError") = .error "URIError" ∧
    ¬ ∃ st body,
      handlerJs (.error "URIError") = .ok [.writeHead st htmlHeaders, .endWith body] := by
  refine ⟨rfl, ?_⟩
  rintro ⟨st, body, h⟩
  exact Except.noConfusion h

/-- Claim C13: for every request, whichever of the four pages is sent, the
headers passed to `writeHead` set `Content-Type` to `text/html`. -/
theorem content_type_is_html (req : Request) :
    headersOf (handler req) = some [("Content-Type", "text/html")] := by
  unfold handler
  split_ifs <;> rfl

/-- Claim C14: on the callback path with a non-empty error `e`, the calls made
on the response are the same for any two values of `code`: the 400 page built
from `e` alone. -/
theorem error_page_ignores_code (e : String) (c1 c2 : QueryValue) (he : e ≠ "") :
    handler (callbackRequest c1 (.str e)) = handler (callbackRequest c2 (.str e)) ∧
    handler (callbackRequest c1 (.str e))
      = [.writeHead 400 htmlHeaders,
         .endWith (errorPageHead ++ escapeHtml (.str e) ++ errorPageTail)] := by
  have ht := (truthy_str e).mpr he
  exact ⟨(handler_error c1 (.str e) ht).trans (handler_error c2 (.str e) ht).symm,
    handler_error c1 (.str e) ht⟩

/-- Witness: with `error=access_denied` the response is the same for the code
`SECRET` and for no code. -/
theorem error_page_ignores_code_witness :
    "access_denied" ≠ "" ∧
    handler (callbackRequest (.str "SECRET") (.str "access_denied"))
      = handler (callbackRequest .absent (.str "access_denied")) :=
  ⟨by decide, (error_page_ignores_code "access_denied" (.str "SECRET") .absent (by decide)).1⟩

/-- Claim C15: any two requests whose paths both differ from `/auth/callback`
get the same response, the fixed not-found page, whatever their paths and
queries. -/
theorem not_found_page_is_constant (r1 r2 : Request)
    (h1 : r1.pathname ≠ some "/auth/callback") (h2 : r2.pathname ≠ some "/auth/callback") :
    handler r1 = handler r2 ∧
    statusOf (handler r1) = some 404 ∧
    bodyOf (handler r1) = some notFoundPage := by
  have e1 := handler_not_found r1 h1
  have e2 := handler_not_found r2 h2
  exact ⟨e1.trans e2.symm, by rw [e1]; rfl, by rw [e1]; rfl⟩

/-- Witness: `/random/path` with a code and an error, and `/other` with none,
get the same response. -/
theorem not_found_page_is_constant_witness :
    handler ⟨some "/random/path", .str "SECRET", .str "access_denied"⟩
      = handler ⟨some "/other", .absent, .absent⟩ :=
  (not_found_page_is_constant ⟨some "/random/path", .str "SECRET", .str "access_denied"⟩
    ⟨some "/other", .absent, .absent⟩ (by decide) (by decide)).1

/-- Claim C16: `escapeHtml` distributes over concatenation,
`escapeHtml(a + b) = escapeHtml(a) + escapeHtml(b)`, and maps the empty string
to the empty string. -/
theorem escapeHtml_concat (a b : String) :
    escapeHtml (.str (a ++ b)) = escapeHtml (.str a) ++ escapeHtml (.str b) ∧
    escapeHtml (.str "") = "" :=
  ⟨escapeChain_append a b, rfl⟩

/-- Claim C17: for every string `s`, escaping twice gives the same as escaping
once exactly when escaping leaves `s` unchanged, which is exactly when `s` has
none of the five special characters. -/
theorem escapeHtml_twice_iff (s : String) :
    (escapeHtml (.str (escapeHtml (.str s))) = escapeHtml (.str s) ↔
      escapeHtml (.str s) = s) ∧
    (escapeHtml (.str s) = s ↔
      ∀ ch ∈ s.data, ch ≠ '&' ∧ ch ≠ '<' ∧ ch ≠ '>' ∧ ch ≠ dquote ∧ ch ≠ squote) := by
  have hplain : (∀ x ∈ s.data, isSpecial x = false) ↔
      ∀ ch ∈ s.data, ch ≠ '&' ∧ ch ≠ '<' ∧ ch ≠ '>' ∧ ch ≠ dquote ∧ ch ≠ squote :=
    forall₂_congr fun x _ => isSpecial_false_iff x
  have h1 : escapeHtml (.str (escapeHtml (.str s))) = escapeHtml (.str s) ↔
      ∀ x ∈ s.data, isSpecial x = false := escapeChain_twice_iff s
  have h2 : escapeHtml (.str s) = s ↔ ∀ x ∈ s.data, isSpecial x = false :=
    escapeChain_fixed_iff s
  exact ⟨h1.trans h2.symm, h2.trans hplain⟩

end OAuthCallback
